import Mathlib

/-!
Verification of `src/Essay_analyzer.py` (Essay-Analyzer repository).

The Python source is shallowly embedded below.  Python string primitives
(`str.strip`, `str.split`, `str.replace`, `str.format`, `str.upper`,
`str.isspace`, whitespace `split()`) are modelled as executable functions on
`List Char` (fuel-based structural recursion so that every definition reduces
in the kernel).  The langchain combinators (`PromptTemplate`, the `|`
composition, `RunnableParallel`, `StrOutputParser`) are embedded as a small
`Runnable` semantics over a value type `RValue`, threading a log of every
prompt string dispatched to the model client; the model client itself is a
parameter `f : String → Except String String` (a deterministic, possibly
failing stub).  The streamlit presentation layer is embedded as a function
from the essay input to the list of rendered widgets plus the download
payload.
-/

set_option maxRecDepth 16384

namespace EssayAnalyzer

/-! ## Python string primitives -/

/-- Python `str.strip()` on a character list: drop whitespace from both ends. -/
def pyStripChars (l : List Char) : List Char :=
  ((l.dropWhile Char.isWhitespace).reverse.dropWhile Char.isWhitespace).reverse

/-- Python `str.strip()`. -/
def pyStrip (s : String) : String := String.mk (pyStripChars s.data)

/-- Python `str.isspace()`: nonempty and all characters whitespace. -/
def pyIsSpace (s : String) : Bool :=
  !s.data.isEmpty && s.data.all Char.isWhitespace

/-- Python `str.upper()` (ASCII model). -/
def pyUpper (s : String) : String := String.mk (s.data.map Char.toUpper)

/-- Python `str.startswith(p)`. -/
def pyStartsWith (s p : String) : Bool := p.data.isPrefixOf s.data

/-- Whitespace-delimited words, as in Python `str.split()` with no argument:
maximal runs of non-whitespace characters.  `fuel` bounds the recursion and is
instantiated with the length of the list. -/
def wordsAux : Nat → List Char → List (List Char)
  | _, [] => []
  | 0, _ :: _ => []
  | fuel + 1, c :: rest =>
    if c.isWhitespace then
      wordsAux fuel rest
    else
      (c :: rest.takeWhile (fun d => !d.isWhitespace)) ::
        wordsAux fuel (rest.dropWhile (fun d => !d.isWhitespace))

/-- Python `str.split()` with no argument. -/
def pyWords (s : String) : List String :=
  (wordsAux s.data.length s.data).map String.mk

/-- Python `str.split(sep)` with an explicit separator: left-to-right scan,
splitting at each non-overlapping occurrence of `sep`, keeping empty chunks.
`fuel` bounds the recursion and is instantiated with the length of the list. -/
def pySplitAux (sep : List Char) : Nat → List Char → List (List Char)
  | 0, s => [s]
  | fuel + 1, s =>
    match s with
    | [] => [[]]
    | c :: rest =>
      if sep.isPrefixOf (c :: rest) then
        [] :: pySplitAux sep fuel ((c :: rest).drop sep.length)
      else
        match pySplitAux sep fuel rest with
        | t :: ts => (c :: t) :: ts
        | [] => [[c]]

/-- Python `str.split(sep)` on character lists with canonical fuel. -/
def pySplitL (sep s : List Char) : List (List Char) := pySplitAux sep s.length s

/-- Python `s.split(sep)`. -/
def pySplit (s sep : String) : List String :=
  (pySplitL sep.data s.data).map String.mk

/-- Python `str.replace(pat, rep)`: left-to-right replacement of
non-overlapping occurrences.  `fuel` bounds the recursion and is instantiated
with the length of the list. -/
def replaceAux (pat rep : List Char) : Nat → List Char → List Char
  | _, [] => []
  | 0, s => s
  | fuel + 1, c :: rest =>
    if pat.isPrefixOf (c :: rest) then
      rep ++ replaceAux pat rep fuel ((c :: rest).drop pat.length)
    else
      c :: replaceAux pat rep fuel rest

/-- Python `s.replace(pat, rep)`. -/
def pyReplace (s pat rep : String) : String :=
  String.mk (replaceAux pat.data rep.data s.data.length s.data)

/-! ## Python `str.format` (the langchain `PromptTemplate` renderer)

`takeVar` scans a placeholder name up to the closing `\x7d`; `pyFormatAux`
walks the template, copying literal characters and splicing substitution
values (values are never re-scanned, as in Python `str.format`).  A lone
closing brace, an unterminated placeholder, or a placeholder with no supplied
value is an error (`none`). -/

/-- Scan the characters of a placeholder name up to the closing brace. -/
def takeVar : List Char → Option (List Char × List Char)
  | [] => none
  | c :: rest =>
    if c = '}' then some ([], rest)
    else if c = '{' then none
    else
      match takeVar rest with
      | some (n, r) => some (c :: n, r)
      | none => none

/-- Association-list lookup used for substitution maps and for `os.getenv`. -/
def lookupVal : List (String × String) → String → Option String
  | [], _ => none
  | (k, v) :: rest, n => if k = n then some v else lookupVal rest n

/-- One pass of Python `str.format` over the template characters. -/
def pyFormatAux (m : List (String × String)) : Nat → List Char → Option (List Char)
  | _, [] => some []
  | 0, _ :: _ => none
  | fuel + 1, c :: rest =>
    if c = '{' then
      (takeVar rest).bind fun p =>
        (lookupVal m (String.mk p.1)).bind fun v =>
          (pyFormatAux m fuel p.2).map fun t => v.data ++ t
    else if c = '}' then none
    else (pyFormatAux m fuel rest).map fun t => c :: t

/-- Python `template.format(**m)`. -/
def pyFormat (t : String) (m : List (String × String)) : Option String :=
  (pyFormatAux m t.data.length t.data).map String.mk

/-- The placeholder names of a template, scanned in template order
(mirrors the scan of `pyFormatAux`). -/
def scanVars : Nat → List Char → List String
  | _, [] => []
  | 0, _ :: _ => []
  | fuel + 1, c :: rest =>
    if c = '{' then
      ((takeVar rest).map fun p => String.mk p.1 :: scanVars fuel p.2).getD []
    else scanVars fuel rest

/-- The placeholder names of a template. -/
def placeholdersOf (t : String) : List String := scanVars t.data.length t.data

/-! ## Markup predicates used by the cleanup claims -/

/-- Does the character list contain three consecutive hyphens? -/
def hasTripleDash : List Char → Bool
  | [] => false
  | c :: rest => (decide (c = '-') && ['-', '-'].isPrefixOf rest) || hasTripleDash rest

/-- Does the character list contain two consecutive newline characters? -/
def hasDoubleNewline : List Char → Bool
  | [] => false
  | c :: rest => (decide (c = '\n') && ['\n'].isPrefixOf rest) || hasDoubleNewline rest

/-! ## The langchain layer: prompt templates and runnables -/

/-- `langchain.prompts.PromptTemplate`. -/
structure PromptTemplateM where
  template : String
  input_variables : List String

/-- `essay_prompt` (source lines 19–35). -/
def essay_prompt : PromptTemplateM where
  template := "Evaluate the essay provided in the input. Work in three sections only.

Structural assessment
Identify weaknesses in organization, argument flow, clarity of thesis, and paragraph coherence.

Content assessment
Point out gaps in reasoning, unsupported claims, factual inconsistencies, and missing evidence.

Revision directives
List concrete, actionable changes that would improve clarity, argument strength, and overall quality.
Avoid rewriting the essay. Focus only on weaknesses and what should be fixed.

Base your analysis strictly on the text.
{essay}"
  input_variables := ["essay"]

/-- `weakness_highlighter` (source lines 37–46; the first line of the
template ends with a space before the newline, as in the source). -/
def weakness_highlighter : PromptTemplateM where
  template := "Identify every weakness present in the following text. \nFocus only on logical gaps, unclear reasoning, missing evidence,\nstructural issues, or inaccurate claims. Do not restate strengths.\nDo not summarize the full text. Return only the weaknesses with no added explanation.\n\nText:\n{analysis_output}"
  input_variables := ["analysis_output"]

/-- `suggestion_generator` (source lines 48–53). -/
def suggestion_generator : PromptTemplateM where
  template := "Provide precise, high-value suggestions based on the following text.
Identify the core issue, state what matters, list exact actions that fix it. Do not add commentary, questions, or motivational tone.
{analysis_output}"
  input_variables := ["analysis_output"]

/-- `final_prompt` (source lines 55–71; the template begins and ends with a
newline, as in the source triple-quoted literal). -/
def final_prompt : PromptTemplateM where
  template := "
Create a clear, well-structured analysis report with the following sections:

MAIN WEAKNESSES:
{Weakness}

SUGGESTIONS FOR IMPROVEMENT:
{Suggestions}

OVERVIEW:
{summary}

Format each section clearly without markdown tables or complex formatting.
"
  input_variables := ["summary", "Weakness", "Suggestions"]

/-- Values flowing through a langchain chain: either a plain string or a
string-valued dict. -/
inductive RValue where
  | vstr (s : String)
  | vdict (m : List (String × String))
deriving DecidableEq

/-- A runnable: maps an input value and the log of model calls made so far to
a result (or error) together with the extended log.  The log records every
prompt string dispatched to the model client. -/
def Runnable : Type :=
  RValue → List String → (Except String RValue) × List String

/-- Sequential composition, langchain's `a | b`. -/
def rcomp (a b : Runnable) : Runnable := fun v log =>
  match a v log with
  | (.ok v1, log1) => b v1 log1
  | (.error e, log1) => (.error e, log1)

/-- A `PromptTemplate` as a runnable: a dict input is formatted directly; a
string input is coerced to a one-entry dict when the template has exactly one
input variable (langchain's input coercion). -/
def promptRunnable (t : PromptTemplateM) : Runnable := fun v log =>
  match v with
  | .vdict m =>
    match pyFormat t.template m with
    | some out => (.ok (.vstr out), log)
    | none => (.error "prompt formatting failed", log)
  | .vstr s =>
    match t.input_variables with
    | [x] =>
      match pyFormat t.template [(x, s)] with
      | some out => (.ok (.vstr out), log)
      | none => (.error "prompt formatting failed", log)
    | _ => (.error "invalid prompt input", log)

/-- The model client (`llm`) as a runnable, parameterized by the stub
`f : String → Except String String`.  Every dispatched prompt is logged. -/
def llmRunnable (f : String → Except String String) : Runnable := fun v log =>
  match v with
  | .vstr p =>
    match f p with
    | .ok out => (.ok (.vstr out), log ++ [p])
    | .error e => (.error e, log ++ [p])
  | .vdict _ => (.error "model input is not a string", log)

/-- `StrOutputParser`: identity on string values. -/
def parserStep : Runnable := fun v log =>
  match v with
  | .vstr s => (.ok (.vstr s), log)
  | .vdict _ => (.error "parse input is not a string", log)

/-- Run the branches of a `RunnableParallel` on the shared input, collecting
their string outputs into a dict; the first failing branch fails the whole. -/
def runParallelAux : List (String × Runnable) → RValue → List String →
    (Except String (List (String × String))) × List String
  | [], _, log => (.ok [], log)
  | (k, r) :: rest, v, log =>
    match r v log with
    | (.ok (.vstr s), log1) =>
      match runParallelAux rest v log1 with
      | (.ok m, log2) => (.ok ((k, s) :: m), log2)
      | (.error e, log2) => (.error e, log2)
    | (.ok (.vdict _), log1) => (.error "branch output is not a string", log1)
    | (.error e, log1) => (.error e, log1)

/-- `RunnableParallel`. -/
def runnableParallel (steps : List (String × Runnable)) : Runnable := fun v log =>
  match runParallelAux steps v log with
  | (.ok m, l) => (.ok (.vdict m), l)
  | (.error e, l) => (.error e, l)

/-- `chain1` (source lines 73–79), with the model client abstracted. -/
def chain1 (f : String → Except String String) : Runnable :=
  runnableParallel
    [("summary",
        rcomp (promptRunnable essay_prompt) (rcomp (llmRunnable f) parserStep)),
     ("Weakness",
        rcomp (rcomp (promptRunnable essay_prompt) (rcomp (llmRunnable f) parserStep))
          (rcomp (promptRunnable weakness_highlighter) (rcomp (llmRunnable f) parserStep))),
     ("Suggestions",
        rcomp (rcomp (promptRunnable essay_prompt) (rcomp (llmRunnable f) parserStep))
          (rcomp (promptRunnable suggestion_generator) (rcomp (llmRunnable f) parserStep)))]

/-- `final_chain` (source line 81). -/
def final_chain (f : String → Except String String) : Runnable :=
  rcomp (chain1 f) (rcomp (promptRunnable final_prompt) (rcomp (llmRunnable f) parserStep))

/-- `final_chain.invoke({"essay": essay})` (source line 115), returning the
result string (or error) and the log of model calls. -/
def finalChainRun (f : String → Except String String) (essay : String) :
    (Except String String) × List String :=
  match final_chain f (.vdict [("essay", essay)]) [] with
  | (.ok (.vstr r), log) => (.ok r, log)
  | (.ok (.vdict _), log) => (.error "pipeline output is not a string", log)
  | (.error e, log) => (.error e, log)

/-! ## The streamlit presentation layer -/

/-- A widget written to the page by the result-rendering loop. -/
inductive RenderItem where
  | divider
  | subheader (title : String)
  | bullet (text : String)
  | prose (text : String)
  | raw (text : String)
deriving DecidableEq

/-- The payload of `st.download_button` (source lines 158–164). -/
structure DownloadInfo where
  data : String
  fileName : String
  mime : String
deriving DecidableEq

/-- The user-visible outcome of one click of the Analyze button. -/
inductive HandlerOutput where
  | warning (msg : String)
  | errorMsg (msg : String)
  | report (items : List RenderItem) (download : DownloadInfo)
deriving DecidableEq

/-- The markup cleanup (source line 120):
`result.replace('|', '').replace('---', '').replace('-------', '')`. -/
def cleanResult (r : String) : String :=
  pyReplace (pyReplace (pyReplace r "|" "") "---" "") "-------" ""

/-- The bullet loop over the non-title lines of a recognized section
(source lines 135–137 and 142–144). -/
def bulletLines (ls : List String) : List RenderItem :=
  ls.filterMap fun l =>
    if !(pyStrip l).isEmpty && !(pyIsSpace l) then
      some (.bullet ("• " ++ pyStrip l))
    else none

/-- The body of the section-rendering loop (source lines 125–155) applied to
one chunk of the blank-line split. -/
def renderSection (sec : String) : List RenderItem :=
  if (pyStrip sec).isEmpty then []
  else
    let lines := pySplit (pyStrip sec) "\n"
    let sectionTitle := pyStrip (lines.headD "")
    if pyStartsWith (pyUpper sectionTitle) "MAIN WEAKNESSES" then
      RenderItem.divider :: RenderItem.subheader "Main Weaknesses" :: bulletLines lines.tail
    else if pyStartsWith (pyUpper sectionTitle) "SUGGESTIONS" then
      RenderItem.divider :: RenderItem.subheader "Suggestions for Improvement" ::
        bulletLines lines.tail
    else if pyStartsWith (pyUpper sectionTitle) "OVERVIEW" then
      [RenderItem.divider, RenderItem.subheader "Overview",
        RenderItem.prose (String.intercalate " "
          (if lines.length > 1 then lines.tail else lines))]
    else
      if lines.length > 1 then [RenderItem.raw sec] else []

/-- The whole rendering of a cleaned result: split on blank lines and render
each section in order (source lines 123–155). -/
def renderReport (cleaned : String) : List RenderItem :=
  ((pySplit cleaned "\n\n").map renderSection).flatten

/-- The success/failure presentation of one pipeline invocation: the body of
the `else` branch of the click handler (source lines 113–167). -/
def presentPipeline (res : (Except String String) × List String) :
    HandlerOutput × List String :=
  match res with
  | (.ok r, log) =>
    (.report (renderReport (cleanResult r))
      ⟨r, "essay_analysis.txt", "text/plain"⟩, log)
  | (.error e, log) => (.errorMsg ("Analysis failed: " ++ e), log)

/-- One click of the Analyze button (source lines 109–167): reject blank
input with a warning and no model call, otherwise invoke the pipeline and
present its outcome. -/
def analyzeClick (f : String → Except String String) (essay : String) :
    HandlerOutput × List String :=
  if (pyStrip essay).isEmpty then
    (.warning "Please enter an essay to analyze.", [])
  else
    presentPipeline (finalChainRun f essay)

/-! ## Document statistics (source lines 101–103) -/

/-- `len(essay_input.split())`. -/
def wordCount (s : String) : Nat := (pyWords s).length

/-- `len([p for p in essay_input.split('\n\n') if p.strip()])`. -/
def paraCount (s : String) : Nat :=
  ((pySplit s "\n\n").filter fun p => !(pyStrip p).isEmpty).length

/-- `len([s for s in essay_input.replace('?', '.').replace('!', '.').split('.') if s.strip()])`. -/
def sentenceCount (s : String) : Nat :=
  ((pySplit (pyReplace (pyReplace s "?" ".") "!" ".") ".").filter
    fun c => !(pyStrip c).isEmpty).length

/-! ## Startup (credential check) -/

/-- Result of script startup: either halted with a fatal configuration error
or showing the UI page. -/
inductive StartupResult where
  | fatal (msg : String)
  | ready (pageTitle : String)
deriving DecidableEq

/-- Modelled from the spec: the model-client construction
(`ChatGroq(api_key=os.getenv("api_key"), ...)`, source lines 11–15) is
performed by a third-party library whose code is not under `src/`; per the
spec, a missing credential is fatal at startup, halting the script before the
UI (`st.set_page_config` onwards, source line 83) is built. -/
def startup (env : List (String × String)) : StartupResult :=
  match lookupVal env "api_key" with
  | none => .fatal "Missing API credential"
  | some _ => .ready "Essay Analyzer"

/-! ## Decompositions of the four templates

Each template splits into brace-free literal chunks and placeholders; the
chunk constants below are proved against the template literals by `decide`. -/

/-- The literal part of `essay_prompt` before its `{essay}` placeholder. -/
def essayPre : String := "Evaluate the essay provided in the input. Work in three sections only.

Structural assessment
Identify weaknesses in organization, argument flow, clarity of thesis, and paragraph coherence.

Content assessment
Point out gaps in reasoning, unsupported claims, factual inconsistencies, and missing evidence.

Revision directives
List concrete, actionable changes that would improve clarity, argument strength, and overall quality.
Avoid rewriting the essay. Focus only on weaknesses and what should be fixed.

Base your analysis strictly on the text.
"

/-- The literal part of `weakness_highlighter` before `{analysis_output}`. -/
def weakPre : String := "Identify every weakness present in the following text. \nFocus only on logical gaps, unclear reasoning, missing evidence,\nstructural issues, or inaccurate claims. Do not restate strengths.\nDo not summarize the full text. Return only the weaknesses with no added explanation.\n\nText:\n"

/-- The literal part of `suggestion_generator` before `{analysis_output}`. -/
def suggPre : String := "Provide precise, high-value suggestions based on the following text.
Identify the core issue, state what matters, list exact actions that fix it. Do not add commentary, questions, or motivational tone.
"

/-- The literal part of `final_prompt` before `{Weakness}`. -/
def finalA : String := "
Create a clear, well-structured analysis report with the following sections:

MAIN WEAKNESSES:
"

/-- The literal part of `final_prompt` between `{Weakness}` and `{Suggestions}`. -/
def finalB : String := "

SUGGESTIONS FOR IMPROVEMENT:
"

/-- The literal part of `final_prompt` between `{Suggestions}` and `{summary}`. -/
def finalC : String := "

OVERVIEW:
"

/-- The literal part of `final_prompt` after `{summary}`. -/
def finalD : String := "

Format each section clearly without markdown tables or complex formatting.
"

/-! ## Lemmas about the `str.format` scanner -/

theorem takeVar_spec (n s : List Char) (hn : ∀ c ∈ n, c ≠ '{' ∧ c ≠ '}') :
    takeVar (n ++ '}' :: s) = some (n, s) := by
  induction n with
  | nil => simp [takeVar]
  | cons c t ih =>
    have hc := hn c (List.mem_cons_self c t)
    have ht : ∀ c ∈ t, c ≠ '{' ∧ c ≠ '}' := fun d hd => hn d (List.mem_cons_of_mem _ hd)
    simp [takeVar, hc.1, hc.2, ih ht]

theorem fmt_brace (m : List (String × String)) (f : Nat) (rest : List Char) :
    pyFormatAux m (f + 1) ('{' :: rest) =
      (takeVar rest).bind fun p =>
        (lookupVal m (String.mk p.1)).bind fun v =>
          (pyFormatAux m f p.2).map fun t => v.data ++ t := rfl

theorem fmt_char (m : List (String × String)) (f : Nat) (rest : List Char) (c : Char)
    (h1 : c ≠ '{') (h2 : c ≠ '}') :
    pyFormatAux m (f + 1) (c :: rest) = (pyFormatAux m f rest).map fun t => c :: t := by
  simp [pyFormatAux, h1, h2]

theorem fmt_lit (m : List (String × String)) (L s : List Char) (f : Nat)
    (hL : ∀ c ∈ L, c ≠ '{' ∧ c ≠ '}') :
    pyFormatAux m (L.length + f) (L ++ s) =
      (pyFormatAux m f s).map (fun t => L ++ t) := by
  induction L with
  | nil =>
    simp only [List.length_nil, Nat.zero_add, List.nil_append]
    cases h : pyFormatAux m f s <;> simp
  | cons c t ih =>
    have hc := hL c (List.mem_cons_self c t)
    have ht : ∀ d ∈ t, d ≠ '{' ∧ d ≠ '}' := fun d hd => hL d (List.mem_cons_of_mem _ hd)
    have harith : (c :: t).length + f = (t.length + f) + 1 := by
      simp only [List.length_cons]; omega
    rw [harith, List.cons_append, fmt_char m (t.length + f) (t ++ s) c hc.1 hc.2, ih ht]
    cases h : pyFormatAux m f s <;> simp

theorem fmt_ph (m : List (String × String)) (n v : String) (s : List Char) (f : Nat)
    (hn : ∀ c ∈ n.data, c ≠ '{' ∧ c ≠ '}') (hv : lookupVal m n = some v) :
    pyFormatAux m (f + 1) ('{' :: (n.data ++ '}' :: s)) =
      (pyFormatAux m f s).map (fun t => v.data ++ t) := by
  have hmk : String.mk n.data = n := rfl
  rw [fmt_brace, takeVar_spec n.data s hn]
  simp only [Option.some_bind, hmk, hv]

theorem fmt_nil (m : List (String × String)) (f : Nat) :
    pyFormatAux m f [] = some [] := by
  cases f <;> rfl

theorem fmt_lit_some (m : List (String × String)) (L s : List Char) (f : Nat) (r : List Char)
    (hL : ∀ c ∈ L, c ≠ '{' ∧ c ≠ '}') (h : pyFormatAux m f s = some r) :
    pyFormatAux m (L.length + f) (L ++ s) = some (L ++ r) := by
  rw [fmt_lit m L s f hL, h]; rfl

theorem fmt_ph_some (m : List (String × String)) (n v : String) (s : List Char) (f : Nat)
    (r : List Char) (hn : ∀ c ∈ n.data, c ≠ '{' ∧ c ≠ '}')
    (hv : lookupVal m n = some v) (h : pyFormatAux m f s = some r) :
    pyFormatAux m (f + 1) ('{' :: (n.data ++ '}' :: s)) = some (v.data ++ r) := by
  rw [fmt_ph m n v s f hn hv, h]; rfl

theorem fmt_mono (m : List (String × String)) :
    ∀ F G s r, pyFormatAux m F s = some r → F ≤ G → pyFormatAux m G s = some r := by
  intro F
  induction F with
  | zero =>
    intro G s r h _
    cases s with
    | nil => simpa [fmt_nil] using h
    | cons c rest => simp [pyFormatAux] at h
  | succ F ih =>
    intro G s r h hFG
    cases s with
    | nil => simpa [fmt_nil] using h
    | cons c rest =>
      obtain ⟨G', rfl⟩ : ∃ G', G = G' + 1 := ⟨G - 1, by omega⟩
      have hFG' : F ≤ G' := by omega
      by_cases hc : c = '{'
      · subst hc
        rw [fmt_brace] at h ⊢
        cases htv : takeVar rest with
        | none => rw [htv] at h; exact absurd h (by simp)
        | some p =>
          rw [htv] at h
          simp only [Option.some_bind] at h ⊢
          cases hlv : lookupVal m (String.mk p.1) with
          | none => rw [hlv] at h; exact absurd h (by simp)
          | some v =>
            rw [hlv] at h
            simp only [Option.some_bind] at h ⊢
            cases hin : pyFormatAux m F p.2 with
            | none => rw [hin] at h; exact absurd h (by simp)
            | some t =>
              rw [hin] at h
              rw [ih G' p.2 t hin hFG']
              exact h
      · by_cases hc2 : c = '}'
        · subst hc2
          rw [show pyFormatAux m (F + 1) ('}' :: rest) = none from rfl] at h
          exact absurd h (by simp)
        · rw [fmt_char m F rest c hc hc2] at h
          rw [fmt_char m G' rest c hc hc2]
          cases hin : pyFormatAux m F rest with
          | none => rw [hin] at h; exact absurd h (by simp)
          | some t => rw [ih G' rest t hin hFG']; rw [hin] at h; exact h

/-! ## Closed forms for rendering each of the four templates -/

theorem renderEssay_eq (v : String) :
    pyFormat essay_prompt.template [("essay", v)] = some (essayPre ++ v) := by
  have hdec : essay_prompt.template.data =
      essayPre.data ++ ('{' :: ("essay".data ++ '}' :: [])) := by decide
  have hL : ∀ c ∈ essayPre.data, c ≠ '{' ∧ c ≠ '}' := by decide
  have hn : ∀ c ∈ "essay".data, c ≠ '{' ∧ c ≠ '}' := by decide
  have hv : lookupVal [("essay", v)] "essay" = some v := by simp [lookupVal]
  have h1 : pyFormatAux [("essay", v)] (0 + 1) ('{' :: ("essay".data ++ '}' :: [])) =
      some (v.data ++ []) :=
    fmt_ph_some _ "essay" v [] 0 [] hn hv (fmt_nil _ 0)
  have h2 := fmt_lit_some [("essay", v)] essayPre.data _ (0 + 1) _ hL h1
  rw [← hdec] at h2
  have hlen : essayPre.data.length + (0 + 1) ≤ essay_prompt.template.data.length := by decide
  have h3 := fmt_mono [("essay", v)] _ essay_prompt.template.data.length _ _ h2 hlen
  unfold pyFormat
  rw [h3]
  simp only [Option.map_some']
  rw [List.append_nil]
  rfl

theorem renderWeak_eq (v : String) :
    pyFormat weakness_highlighter.template [("analysis_output", v)] =
      some (weakPre ++ v) := by
  have hdec : weakness_highlighter.template.data =
      weakPre.data ++ ('{' :: ("analysis_output".data ++ '}' :: [])) := by decide
  have hL : ∀ c ∈ weakPre.data, c ≠ '{' ∧ c ≠ '}' := by decide
  have hn : ∀ c ∈ "analysis_output".data, c ≠ '{' ∧ c ≠ '}' := by decide
  have hv : lookupVal [("analysis_output", v)] "analysis_output" = some v := by
    simp [lookupVal]
  have h1 : pyFormatAux [("analysis_output", v)] (0 + 1)
      ('{' :: ("analysis_output".data ++ '}' :: [])) = some (v.data ++ []) :=
    fmt_ph_some _ "analysis_output" v [] 0 [] hn hv (fmt_nil _ 0)
  have h2 := fmt_lit_some [("analysis_output", v)] weakPre.data _ (0 + 1) _ hL h1
  rw [← hdec] at h2
  have hlen : weakPre.data.length + (0 + 1) ≤ weakness_highlighter.template.data.length := by
    decide
  have h3 := fmt_mono [("analysis_output", v)] _ weakness_highlighter.template.data.length
    _ _ h2 hlen
  unfold pyFormat
  rw [h3]
  simp only [Option.map_some']
  rw [List.append_nil]
  rfl

theorem renderSugg_eq (v : String) :
    pyFormat suggestion_generator.template [("analysis_output", v)] =
      some (suggPre ++ v) := by
  have hdec : suggestion_generator.template.data =
      suggPre.data ++ ('{' :: ("analysis_output".data ++ '}' :: [])) := by decide
  have hL : ∀ c ∈ suggPre.data, c ≠ '{' ∧ c ≠ '}' := by decide
  have hn : ∀ c ∈ "analysis_output".data, c ≠ '{' ∧ c ≠ '}' := by decide
  have hv : lookupVal [("analysis_output", v)] "analysis_output" = some v := by
    simp [lookupVal]
  have h1 : pyFormatAux [("analysis_output", v)] (0 + 1)
      ('{' :: ("analysis_output".data ++ '}' :: [])) = some (v.data ++ []) :=
    fmt_ph_some _ "analysis_output" v [] 0 [] hn hv (fmt_nil _ 0)
  have h2 := fmt_lit_some [("analysis_output", v)] suggPre.data _ (0 + 1) _ hL h1
  rw [← hdec] at h2
  have hlen : suggPre.data.length + (0 + 1) ≤ suggestion_generator.template.data.length := by
    decide
  have h3 := fmt_mono [("analysis_output", v)] _ suggestion_generator.template.data.length
    _ _ h2 hlen
  unfold pyFormat
  rw [h3]
  simp only [Option.map_some']
  rw [List.append_nil]
  rfl

theorem renderFinal_eq (s w g : String) :
    pyFormat final_prompt.template [("summary", s), ("Weakness", w), ("Suggestions", g)] =
      some (finalA ++ w ++ finalB ++ g ++ finalC ++ s ++ finalD) := by
  set m : List (String × String) :=
    [("summary", s), ("Weakness", w), ("Suggestions", g)] with hm
  have hdec : final_prompt.template.data =
      finalA.data ++ ('{' :: ("Weakness".data ++ '}' ::
        (finalB.data ++ ('{' :: ("Suggestions".data ++ '}' ::
          (finalC.data ++ ('{' :: ("summary".data ++ '}' ::
            finalD.data)))))))) := by decide
  have hA : ∀ c ∈ finalA.data, c ≠ '{' ∧ c ≠ '}' := by decide
  have hB : ∀ c ∈ finalB.data, c ≠ '{' ∧ c ≠ '}' := by decide
  have hC : ∀ c ∈ finalC.data, c ≠ '{' ∧ c ≠ '}' := by decide
  have hD : ∀ c ∈ finalD.data, c ≠ '{' ∧ c ≠ '}' := by decide
  have hnW : ∀ c ∈ "Weakness".data, c ≠ '{' ∧ c ≠ '}' := by decide
  have hnS : ∀ c ∈ "Suggestions".data, c ≠ '{' ∧ c ≠ '}' := by decide
  have hnY : ∀ c ∈ "summary".data, c ≠ '{' ∧ c ≠ '}' := by decide
  have hvW : lookupVal m "Weakness" = some w := by simp [hm, lookupVal]
  have hvS : lookupVal m "Suggestions" = some g := by simp [hm, lookupVal]
  have hvY : lookupVal m "summary" = some s := by simp [hm, lookupVal]
  have h0 : pyFormatAux m finalD.data.length finalD.data = some finalD.data := by
    have := fmt_lit_some m finalD.data [] 0 [] hD (fmt_nil m 0)
    simpa using this
  have h1 := fmt_ph_some m "summary" s finalD.data finalD.data.length _ hnY hvY h0
  have h2 := fmt_lit_some m finalC.data _ (finalD.data.length + 1) _ hC h1
  have h3 := fmt_ph_some m "Suggestions" g _ (finalC.data.length + (finalD.data.length + 1))
    _ hnS hvS h2
  have h4 := fmt_lit_some m finalB.data _
    (finalC.data.length + (finalD.data.length + 1) + 1) _ hB h3
  have h5 := fmt_ph_some m "Weakness" w _
    (finalB.data.length + (finalC.data.length + (finalD.data.length + 1) + 1)) _ hnW hvW h4
  have h6 := fmt_lit_some m finalA.data _
    (finalB.data.length + (finalC.data.length + (finalD.data.length + 1) + 1) + 1) _ hA h5
  rw [← hdec] at h6
  have hlen : finalA.data.length +
      (finalB.data.length + (finalC.data.length + (finalD.data.length + 1) + 1) + 1) ≤
      final_prompt.template.data.length := by decide
  have h7 := fmt_mono m _ final_prompt.template.data.length _ _ h6 hlen
  unfold pyFormat
  rw [hm] at h7
  rw [h7]
  simp only [Option.map_some']
  congr 1
  apply String.ext
  show finalA.data ++ (w.data ++ (finalB.data ++ (g.data ++
      (finalC.data ++ (s.data ++ finalD.data))))) = _
  simp [String.data_append, List.append_assoc]

/-! ## Helpers for distinguishing rendered prompts by their first character -/

theorem append_data_head (p x : String) (c : Char) (h : p.data.head? = some c) :
    (p ++ x).data.head? = some c := by
  rw [String.data_append, List.head?_append_of_ne_nil]
  · exact h
  · intro hnil; rw [hnil] at h; simp at h

theorem ne_of_head (a b : String) (c d : Char) (ha : a.data.head? = some c)
    (hb : b.data.head? = some d) (hcd : c ≠ d) : a ≠ b := by
  intro h
  rw [h, hb] at ha
  exact hcd (Option.some.inj ha).symm

/-! ## Claim theorems -/

/-- C1: for every essay string (and every deterministic stub model client
`f`), the pipeline runs three branches that each start from the same
unmodified essay rendered into `essay_prompt` (so the rendered essay prompt
`essayPre ++ essay` is dispatched to the model exactly three times, as the
call log shows), the Weakness branch chains through `weakness_highlighter`
and the Suggestions branch through `suggestion_generator`, and the final
model call receives exactly the three branch outputs bound to the
placeholders `summary`, `Weakness`, `Suggestions` of `final_prompt`. -/
theorem claim_C1 (f : String → String) (essay : String) :
    (pyFormat essay_prompt.template [("essay", essay)] = some (essayPre ++ essay) ∧
      pyFormat weakness_highlighter.template
        [("analysis_output", f (essayPre ++ essay))] =
        some (weakPre ++ f (essayPre ++ essay)) ∧
      pyFormat suggestion_generator.template
        [("analysis_output", f (essayPre ++ essay))] =
        some (suggPre ++ f (essayPre ++ essay)) ∧
      pyFormat final_prompt.template
        [("summary", f (essayPre ++ essay)),
         ("Weakness", f (weakPre ++ f (essayPre ++ essay))),
         ("Suggestions", f (suggPre ++ f (essayPre ++ essay)))] =
        some (finalA ++ f (weakPre ++ f (essayPre ++ essay)) ++ finalB ++
          f (suggPre ++ f (essayPre ++ essay)) ++ finalC ++ f (essayPre ++ essay) ++
          finalD)) ∧
    finalChainRun (fun p => Except.ok (f p)) essay =
      (Except.ok (f (finalA ++ f (weakPre ++ f (essayPre ++ essay)) ++ finalB ++
          f (suggPre ++ f (essayPre ++ essay)) ++ finalC ++ f (essayPre ++ essay) ++
          finalD)),
        [essayPre ++ essay,
         essayPre ++ essay,
         weakPre ++ f (essayPre ++ essay),
         essayPre ++ essay,
         suggPre ++ f (essayPre ++ essay),
         finalA ++ f (weakPre ++ f (essayPre ++ essay)) ++ finalB ++
           f (suggPre ++ f (essayPre ++ essay)) ++ finalC ++ f (essayPre ++ essay) ++
           finalD]) ∧
    [essayPre ++ essay,
     essayPre ++ essay,
     weakPre ++ f (essayPre ++ essay),
     essayPre ++ essay,
     suggPre ++ f (essayPre ++ essay),
     finalA ++ f (weakPre ++ f (essayPre ++ essay)) ++ finalB ++
       f (suggPre ++ f (essayPre ++ essay)) ++ finalC ++ f (essayPre ++ essay) ++
       finalD].count (essayPre ++ essay) = 3 := by
  refine ⟨⟨renderEssay_eq essay, renderWeak_eq _, renderSugg_eq _, renderFinal_eq _ _ _⟩,
    ?_, ?_⟩
  · have hw : weakness_highlighter.input_variables = ["analysis_output"] := rfl
    have hs : suggestion_generator.input_variables = ["analysis_output"] := rfl
    simp only [finalChainRun, final_chain, chain1, rcomp, runnableParallel, runParallelAux,
      promptRunnable, llmRunnable, parserStep, hw, hs, renderEssay_eq, renderWeak_eq,
      renderSugg_eq, renderFinal_eq, List.nil_append, List.cons_append, List.append_nil]
  · have hE : (essayPre ++ essay).data.head? = some 'E' :=
      append_data_head _ _ _ (by decide)
    have hW : (weakPre ++ f (essayPre ++ essay)).data.head? = some 'I' :=
      append_data_head _ _ _ (by decide)
    have hS : (suggPre ++ f (essayPre ++ essay)).data.head? = some 'P' :=
      append_data_head _ _ _ (by decide)
    have hF1 : (finalA ++ f (weakPre ++ f (essayPre ++ essay))).data.head? = some '\n' :=
      append_data_head _ _ _ (by decide)
    have hF2 := append_data_head _ finalB _ hF1
    have hF3 := append_data_head _ (f (suggPre ++ f (essayPre ++ essay))) _ hF2
    have hF4 := append_data_head _ finalC _ hF3
    have hF5 := append_data_head _ (f (essayPre ++ essay)) _ hF4
    have hF6 := append_data_head _ finalD _ hF5
    have ne1 : essayPre ++ essay ≠ weakPre ++ f (essayPre ++ essay) :=
      ne_of_head _ _ 'E' 'I' hE hW (by decide)
    have ne2 : essayPre ++ essay ≠ suggPre ++ f (essayPre ++ essay) :=
      ne_of_head _ _ 'E' 'P' hE hS (by decide)
    have ne3 : essayPre ++ essay ≠
        finalA ++ f (weakPre ++ f (essayPre ++ essay)) ++ finalB ++
          f (suggPre ++ f (essayPre ++ essay)) ++ finalC ++ f (essayPre ++ essay) ++
          finalD :=
      ne_of_head _ _ 'E' '\n' hE hF6 (by decide)
    simp [List.count_cons, ne1, ne2, ne3]

/-! ## Whitespace characterization of the empty-input guard -/

theorem pyStripChars_eq_nil_iff (l : List Char) :
    pyStripChars l = [] ↔ ∀ c ∈ l, c.isWhitespace := by
  unfold pyStripChars
  rw [List.reverse_eq_nil_iff, List.dropWhile_eq_nil_iff]
  constructor
  · intro h c hc
    by_cases hx : c ∈ l.dropWhile Char.isWhitespace
    · exact h c (List.mem_reverse.mpr hx)
    · have hsplit := List.takeWhile_append_dropWhile (p := Char.isWhitespace) (l := l)
      rw [← hsplit] at hc
      rcases List.mem_append.mp hc with h1 | h2
      · exact List.mem_takeWhile_imp h1
      · exact absurd h2 hx
  · intro h x hx
    exact h x (List.dropWhile_sublist _ |>.mem (List.mem_reverse.mp hx))

theorem pyStrip_eq_empty_iff (s : String) :
    pyStrip s = "" ↔ ∀ c ∈ s.data, c.isWhitespace := by
  rw [show pyStrip s = String.mk (pyStripChars s.data) from rfl, String.ext_iff]
  exact pyStripChars_eq_nil_iff s.data

/-- C2: pressing Analyze on input that is empty or whitespace-only shows the
empty-input warning and makes no model call (the call log stays empty and the
pipeline is never run); on input with at least one non-whitespace character
the pipeline is invoked and its outcome presented. -/
theorem claim_C2 (f : String → Except String String) (essay : String) :
    ((∀ c ∈ essay.data, c.isWhitespace) →
      analyzeClick f essay = (.warning "Please enter an essay to analyze.", [])) ∧
    ((∃ c ∈ essay.data, ¬ c.isWhitespace) →
      analyzeClick f essay = presentPipeline (finalChainRun f essay)) := by
  constructor
  · intro h
    have h0 : pyStrip essay = "" := (pyStrip_eq_empty_iff essay).mpr h
    unfold analyzeClick
    rw [h0]
    simp [show ("" : String).isEmpty = true from rfl]
  · rintro ⟨c, hc, hcw⟩
    have h0 : pyStrip essay ≠ "" := fun heq =>
      hcw ((pyStrip_eq_empty_iff essay).mp heq c hc)
    unfold analyzeClick
    rw [if_neg (by simpa [String.isEmpty_iff] using h0)]

theorem claim_C2_witness :
    analyzeClick (fun _ => Except.ok "R") "   " =
      (.warning "Please enter an essay to analyze.", []) ∧
    analyzeClick (fun _ => Except.ok "R") "\n\n" =
      (.warning "Please enter an essay to analyze.", []) ∧
    analyzeClick (fun _ => Except.ok "R") "" =
      (.warning "Please enter an essay to analyze.", []) ∧
    analyzeClick (fun _ => Except.ok "R") "hi" =
      presentPipeline (finalChainRun (fun _ => Except.ok "R") "hi") :=
  ⟨(claim_C2 _ "   ").1 (by decide), (claim_C2 _ "\n\n").1 (by decide),
    (claim_C2 _ "").1 (by decide), (claim_C2 _ "hi").2 ⟨'h', by decide, by decide⟩⟩

/-- C3: the displayed statistics are the naive split-based counts (word count
counts whitespace-separated tokens, paragraph count counts non-blank chunks of
the split on the two-character separator, sentence count counts non-blank
chunks after normalizing question and exclamation marks to periods), and in
particular the three example inputs give 3, 3 and 3. -/
theorem claim_C3 :
    (∀ s : String, wordCount s = (pyWords s).length) ∧
    (∀ s : String, paraCount s =
      ((pySplit s "\n\n").filter fun p => !(pyStrip p).isEmpty).length) ∧
    (∀ s : String, sentenceCount s =
      ((pySplit (pyReplace (pyReplace s "?" ".") "!" ".") ".").filter
        fun c => !(pyStrip c).isEmpty).length) ∧
    wordCount "one two three" = 3 ∧ paraCount "a\n\nb\n\nc" = 3 ∧
    sentenceCount "Hi. Bye! Ok?" = 3 :=
  ⟨fun _ => rfl, fun _ => rfl, fun _ => rfl, by decide, by decide, by decide⟩

/-- C8: if the API credential is absent from the environment at startup,
startup halts with a fatal error and never reaches the ready (UI-shown)
state.  The model-client constructor itself is third-party code, modelled
from the spec in `startup`. -/
theorem claim_C8 (env : List (String × String))
    (h : lookupVal env "api_key" = none) :
    startup env = .fatal "Missing API credential" ∧
    ∀ p, startup env ≠ .ready p := by
  constructor
  · simp [startup, h]
  · intro p
    simp [startup, h]

theorem claim_C8_witness :
    startup [] = .fatal "Missing API credential" ∧
    ∀ p, startup [] ≠ .ready p :=
  claim_C8 [] rfl

/-- C4: whenever the pipeline invocation fails (any model call on any branch,
or the final call, returning an error), the handler displays exactly one error
message containing the failure's description, renders no report and offers no
download; and a failure of the very first model call of a branch already
fails the whole pipeline. -/
theorem claim_C4 (f : String → Except String String) (essay err : String)
    (log : List String) :
    (pyStrip essay ≠ "" → finalChainRun f essay = (.error err, log) →
      analyzeClick f essay = (.errorMsg ("Analysis failed: " ++ err), log) ∧
      ∀ items dl log2, analyzeClick f essay ≠ (.report items dl, log2)) ∧
    (f (essayPre ++ essay) = .error err →
      finalChainRun f essay = (.error err, [essayPre ++ essay])) := by
  constructor
  · intro h0 hrun
    unfold analyzeClick
    rw [if_neg (by simpa [String.isEmpty_iff] using h0), hrun]
    refine ⟨rfl, ?_⟩
    intro items dl log2 hcontra
    rw [show presentPipeline (Except.error err, log) =
      (.errorMsg ("Analysis failed: " ++ err), log) from rfl] at hcontra
    exact absurd hcontra (by simp)
  · intro hf
    simp only [finalChainRun, final_chain, chain1, rcomp, runnableParallel, runParallelAux,
      promptRunnable, llmRunnable, parserStep, renderEssay_eq, hf, List.nil_append]

theorem claim_C4_witness :
    (pyStrip "hi" ≠ "" ∧
      finalChainRun (fun _ => Except.error "boom") "hi" =
        (.error "boom", [essayPre ++ "hi"])) ∧
    analyzeClick (fun _ => Except.error "boom") "hi" =
      (.errorMsg ("Analysis failed: " ++ "boom"), [essayPre ++ "hi"]) ∧
    (∀ items dl log2, analyzeClick (fun _ => Except.error "boom") "hi" ≠
      (.report items dl, log2)) := by
  have hrun := (claim_C4 (fun _ => Except.error "boom") "hi" "boom"
    [essayPre ++ "hi"]).2 (by rfl)
  have hmain := (claim_C4 (fun _ => Except.error "boom") "hi" "boom"
    [essayPre ++ "hi"]).1 (by decide) hrun
  exact ⟨⟨by decide, hrun⟩, hmain.1, hmain.2⟩

/-- C5: on a successful pipeline result, the handler offers exactly the
unmodified pre-cleanup result text as the download payload (file name
`essay_analysis.txt`, mime `text/plain`), while the displayed sections are
computed from the cleaned result. -/
theorem claim_C5 (f : String → Except String String) (essay r : String)
    (log : List String) (h0 : pyStrip essay ≠ "")
    (hrun : finalChainRun f essay = (.ok r, log)) :
    analyzeClick f essay =
      (.report (renderReport (cleanResult r))
        ⟨r, "essay_analysis.txt", "text/plain"⟩, log) := by
  unfold analyzeClick
  rw [if_neg (by simpa [String.isEmpty_iff] using h0), hrun]
  rfl

theorem claim_C5_witness :
    analyzeClick (fun _ => Except.ok "A|B") "hi" =
      (.report (renderReport (cleanResult "A|B"))
        ⟨"A|B", "essay_analysis.txt", "text/plain"⟩,
        (finalChainRun (fun _ => Except.ok "A|B") "hi").2) ∧
    cleanResult "A|B" ≠ "A|B" := by
  refine ⟨claim_C5 _ "hi" "A|B" _ (by decide) ?_, by decide⟩
  rw [Prod.ext_iff]
  exact ⟨by rfl, rfl⟩

/-- C10: a non-blank section whose stripped first line matches none of the
three labels is rendered as-is when it has more than one line and is silently
dropped when it has exactly one line. -/
theorem claim_C10 (sec : String) (h0 : pyStrip sec ≠ "")
    (h1 : pyStartsWith (pyUpper (pyStrip ((pySplit (pyStrip sec) "\n").headD "")))
      "MAIN WEAKNESSES" = false)
    (h2 : pyStartsWith (pyUpper (pyStrip ((pySplit (pyStrip sec) "\n").headD "")))
      "SUGGESTIONS" = false)
    (h3 : pyStartsWith (pyUpper (pyStrip ((pySplit (pyStrip sec) "\n").headD "")))
      "OVERVIEW" = false) :
    renderSection sec =
      if (pySplit (pyStrip sec) "\n").length > 1 then [RenderItem.raw sec] else [] := by
  unfold renderSection
  rw [if_neg (by simpa [String.isEmpty_iff] using h0)]
  simp only [h1, h2, h3, Bool.false_eq_true, if_false]

theorem claim_C10_witness :
    renderSection "alpha\nbeta" = [RenderItem.raw "alpha\nbeta"] ∧
    renderSection "gamma" = [] := by
  constructor
  · exact (claim_C10 "alpha\nbeta" (by decide) (by decide) (by decide) (by decide)).trans
      (by decide)
  · exact (claim_C10 "gamma" (by decide) (by decide) (by decide) (by decide)).trans
      (by decide)

/-! ## Lemmas about the markup cleanup -/

theorem replaceAux_sublist (pat : List Char) :
    ∀ f s, List.Sublist (replaceAux pat [] f s) s := by
  intro f
  induction f with
  | zero =>
    intro s
    cases s with
    | nil => exact List.Sublist.refl _
    | cons c rest => exact List.Sublist.refl _
  | succ f ih =>
    intro s
    cases s with
    | nil => exact List.Sublist.refl _
    | cons c rest =>
      by_cases hp : pat.isPrefixOf (c :: rest)
      · rw [show replaceAux pat [] (f + 1) (c :: rest) =
          [] ++ replaceAux pat [] f ((c :: rest).drop pat.length) from by
            simp [replaceAux, hp]]
        exact (ih _).trans (List.drop_sublist _ _)
      · rw [show replaceAux pat [] (f + 1) (c :: rest) =
          c :: replaceAux pat [] f rest from by simp [replaceAux, hp]]
        exact List.Sublist.cons₂ c (ih rest)

theorem replace_pipe : ∀ f (s : List Char), s.length ≤ f →
    '|' ∉ replaceAux ['|'] [] f s := by
  intro f
  induction f with
  | zero =>
    intro s hs
    have hnil : s = [] := List.eq_nil_of_length_eq_zero (by omega)
    subst hnil
    simp [replaceAux]
  | succ f ih =>
    intro s hs
    cases s with
    | nil => simp [replaceAux]
    | cons c rest =>
      have hrest : rest.length ≤ f := by
        simp only [List.length_cons] at hs; omega
      by_cases hc : c = '|'
      · subst hc
        have hp : (['|'].isPrefixOf ('|' :: rest)) = true := by
          simp [List.isPrefixOf]
        rw [show replaceAux ['|'] [] (f + 1) ('|' :: rest) =
          [] ++ replaceAux ['|'] [] f rest from by simp [replaceAux, hp]]
        rw [List.nil_append]
        exact ih rest hrest
      · have hp : (['|'].isPrefixOf (c :: rest)) = false := by
          simp [List.isPrefixOf]
          exact fun h => hc h.symm
        rw [show replaceAux ['|'] [] (f + 1) (c :: rest) =
          c :: replaceAux ['|'] [] f rest from by simp [replaceAux, hp]]
        intro hmem
        rcases List.mem_cons.mp hmem with h | h
        · exact hc h.symm
        · exact ih rest hrest h

theorem dashPre1 (f : Nat) (s : List Char)
    (h : (['-'].isPrefixOf (replaceAux ['-', '-', '-'] [] f s)) = true) :
    (['-'].isPrefixOf s) = true := by
  cases f with
  | zero =>
    cases s with
    | nil => simpa [replaceAux] using h
    | cons c rest => simpa [replaceAux] using h
  | succ f =>
    cases s with
    | nil => simpa [replaceAux] using h
    | cons c rest =>
      by_cases hp : (['-', '-', '-'].isPrefixOf (c :: rest)) = true
      · simp [List.isPrefixOf] at hp
        simp [List.isPrefixOf]
        exact hp.1
      · rw [show replaceAux ['-', '-', '-'] [] (f + 1) (c :: rest) =
          c :: replaceAux ['-', '-', '-'] [] f rest from by
            simp [replaceAux, hp]] at h
        simp [List.isPrefixOf] at h
        simp [List.isPrefixOf]
        exact h

theorem dashPre2 (f : Nat) (s : List Char)
    (h : (['-', '-'].isPrefixOf (replaceAux ['-', '-', '-'] [] f s)) = true) :
    (['-', '-'].isPrefixOf s) = true := by
  cases f with
  | zero =>
    cases s with
    | nil => simpa [replaceAux] using h
    | cons c rest => simpa [replaceAux] using h
  | succ f =>
    cases s with
    | nil => simpa [replaceAux] using h
    | cons c rest =>
      by_cases hp : (['-', '-', '-'].isPrefixOf (c :: rest)) = true
      · simp [List.isPrefixOf] at hp
        simp [List.isPrefixOf]
        exact ⟨hp.1, List.IsPrefix.trans (by decide) hp.2⟩
      · rw [show replaceAux ['-', '-', '-'] [] (f + 1) (c :: rest) =
          c :: replaceAux ['-', '-', '-'] [] f rest from by
            simp [replaceAux, hp]] at h
        simp [List.isPrefixOf] at h
        have h1 := dashPre1 f rest (by simp [List.isPrefixOf]; exact h.2)
        simp [List.isPrefixOf] at h1
        simp [List.isPrefixOf]
        exact ⟨h.1, h1⟩

theorem replace3_no_triple : ∀ f (s : List Char), s.length ≤ f →
    hasTripleDash (replaceAux ['-', '-', '-'] [] f s) = false := by
  intro f
  induction f with
  | zero =>
    intro s hs
    have hnil : s = [] := List.eq_nil_of_length_eq_zero (by omega)
    subst hnil
    simp [replaceAux, hasTripleDash]
  | succ f ih =>
    intro s hs
    cases s with
    | nil => simp [replaceAux, hasTripleDash]
    | cons c rest =>
      have hrest : rest.length ≤ f := by
        simp only [List.length_cons] at hs; omega
      by_cases hp : (['-', '-', '-'].isPrefixOf (c :: rest)) = true
      · rw [show replaceAux ['-', '-', '-'] [] (f + 1) (c :: rest) =
          [] ++ replaceAux ['-', '-', '-'] [] f ((c :: rest).drop 3) from by
            simp [replaceAux, hp]]
        rw [List.nil_append]
        exact ih _ (by simp only [List.length_drop, List.length_cons]; omega)
      · rw [show replaceAux ['-', '-', '-'] [] (f + 1) (c :: rest) =
          c :: replaceAux ['-', '-', '-'] [] f rest from by
            simp [replaceAux, hp]]
        rw [show hasTripleDash (c :: replaceAux ['-', '-', '-'] [] f rest) =
          ((decide (c = '-') && (['-', '-'].isPrefixOf
            (replaceAux ['-', '-', '-'] [] f rest))) ||
            hasTripleDash (replaceAux ['-', '-', '-'] [] f rest)) from rfl]
        rw [ih rest hrest, Bool.or_false]
        by_cases hc : c = '-'
        · subst hc
          by_cases hd : (['-', '-'].isPrefixOf (replaceAux ['-', '-', '-'] [] f rest)) = true
          · exact absurd (by
              have h2 := dashPre2 f rest hd
              simp [List.isPrefixOf] at h2 ⊢
              exact h2) hp
          · simp only [Bool.not_eq_true] at hd
            rw [hd, Bool.and_false]
        · simp [hc]


theorem replace7_noop : ∀ f (s : List Char), s.length ≤ f →
    hasTripleDash s = false →
    replaceAux ['-', '-', '-', '-', '-', '-', '-'] [] f s = s := by
  intro f
  induction f with
  | zero =>
    intro s hs _
    have hnil : s = [] := List.eq_nil_of_length_eq_zero (by omega)
    subst hnil
    rfl
  | succ f ih =>
    intro s hs h3
    cases s with
    | nil => rfl
    | cons c rest =>
      have hrest : rest.length ≤ f := by
        simp only [List.length_cons] at hs; omega
      by_cases hp : (['-', '-', '-', '-', '-', '-', '-'].isPrefixOf (c :: rest)) = true
      · exfalso
        have hp' : ('-' = c) ∧ (['-', '-', '-', '-', '-', '-'].isPrefixOf rest) = true := by
          simpa [List.isPrefixOf] using hp
        obtain ⟨hc, h6⟩ := hp'
        subst hc
        have h2 : (['-', '-'].isPrefixOf rest) = true := by
          rw [ List.isPrefixOf_iff_prefix] at h6 ⊢
          exact List.IsPrefix.trans (by decide) h6
        rw [show hasTripleDash ('-' :: rest) =
          ((decide (('-' : Char) = '-') && (['-', '-'].isPrefixOf rest)) ||
            hasTripleDash rest) from rfl] at h3
        simp [h2] at h3
      · rw [show replaceAux ['-', '-', '-', '-', '-', '-', '-'] [] (f + 1) (c :: rest) =
          c :: replaceAux ['-', '-', '-', '-', '-', '-', '-'] [] f rest from by
            simp [replaceAux, hp]]
        rw [show hasTripleDash (c :: rest) =
          ((decide (c = '-') && (['-', '-'].isPrefixOf rest)) || hasTripleDash rest)
            from rfl] at h3
        rcases Bool.or_eq_false_iff.mp h3 with ⟨_, hright⟩
        rw [ih rest hrest hright]

/-- C6: the cleaned result used for display equals the raw result with every
`|` removed and every run of hyphens reduced below three by the `---`
replacement (the further 7-hyphen replacement is a no-op); consequently the
cleaned string contains no `|` character and no three consecutive hyphens. -/
theorem claim_C6 (r : String) :
    cleanResult r = pyReplace (pyReplace r "|" "") "---" "" ∧
    '|' ∉ (cleanResult r).data ∧
    hasTripleDash (cleanResult r).data = false := by
  have hPipe1 : '|' ∉ (pyReplace r "|" "").data :=
    replace_pipe r.data.length r.data (Nat.le_refl _)
  have hTriple : hasTripleDash (pyReplace (pyReplace r "|" "") "---" "").data = false :=
    replace3_no_triple (pyReplace r "|" "").data.length (pyReplace r "|" "").data
      (Nat.le_refl _)
  have hPipe2 : '|' ∉ (pyReplace (pyReplace r "|" "") "---" "").data := by
    intro hmem
    exact hPipe1 ((replaceAux_sublist _ _ _).subset hmem)
  have hNoop : cleanResult r = pyReplace (pyReplace r "|" "") "---" "" := by
    show String.mk (replaceAux "-------".data [] _ _) = _
    rw [show ("-------" : String).data = ['-', '-', '-', '-', '-', '-', '-'] from rfl]
    rw [replace7_noop _ _ (Nat.le_refl _) hTriple]
  exact ⟨hNoop, hNoop ▸ hPipe2, hNoop ▸ hTriple⟩

/-! ## Lemmas about `str.split` -/

theorem pySplitAux_cons (sep : List Char) (f : Nat) (c : Char) (rest : List Char) :
    pySplitAux sep (f + 1) (c :: rest) =
      if sep.isPrefixOf (c :: rest) then
        [] :: pySplitAux sep f ((c :: rest).drop sep.length)
      else
        match pySplitAux sep f rest with
        | t :: ts => (c :: t) :: ts
        | [] => [[c]] := rfl

theorem pySplitAux_fuel (sep : List Char) (hsep : sep ≠ []) :
    ∀ f g s, s.length ≤ f → s.length ≤ g → pySplitAux sep f s = pySplitAux sep g s := by
  intro f
  induction f with
  | zero =>
    intro g s hf _
    have hnil : s = [] := List.eq_nil_of_length_eq_zero (by omega)
    subst hnil
    cases g <;> rfl
  | succ f ih =>
    intro g s hf hg
    cases s with
    | nil => cases g <;> rfl
    | cons c rest =>
      have h1 : 1 ≤ sep.length := by
        cases sep with
        | nil => exact absurd rfl hsep
        | cons a b => simp
      obtain ⟨g', rfl⟩ : ∃ g', g = g' + 1 := ⟨g - 1, by
        simp only [List.length_cons] at hg; omega⟩
      rw [pySplitAux_cons, pySplitAux_cons]
      by_cases hp : sep.isPrefixOf (c :: rest)
      · rw [if_pos hp, if_pos hp]
        congr 1
        exact ih g' _
          (by simp only [List.length_drop, List.length_cons] at *; omega)
          (by simp only [List.length_drop, List.length_cons] at *; omega)
      · rw [if_neg hp, if_neg hp]
        rw [ih g' rest
          (by simp only [List.length_cons] at hf; omega)
          (by simp only [List.length_cons] at hg; omega)]

theorem pySplitL_cons (sep : List Char) (hsep : sep ≠ []) (c : Char) (rest : List Char) :
    pySplitL sep (c :: rest) =
      if sep.isPrefixOf (c :: rest) then
        [] :: pySplitL sep ((c :: rest).drop sep.length)
      else
        match pySplitL sep rest with
        | t :: ts => (c :: t) :: ts
        | [] => [[c]] := by
  have h1 : 1 ≤ sep.length := by
    cases sep with
    | nil => exact absurd rfl hsep
    | cons a b => simp
  show pySplitAux sep (rest.length + 1) (c :: rest) = _
  rw [pySplitAux_cons]
  by_cases hp : sep.isPrefixOf (c :: rest)
  · rw [if_pos hp, if_pos hp]
    congr 1
    exact pySplitAux_fuel sep hsep rest.length _ _
      (by simp only [List.length_drop, List.length_cons]; omega)
      (Nat.le_refl _)
  · rw [if_neg hp, if_neg hp]
    rfl

theorem pySplitL_ne_nil (sep : List Char) (hsep : sep ≠ []) (s : List Char) :
    pySplitL sep s ≠ [] := by
  cases s with
  | nil => simp [pySplitL, pySplitAux]
  | cons c rest =>
    rw [pySplitL_cons sep hsep]
    by_cases hp : sep.isPrefixOf (c :: rest)
    · rw [if_pos hp]; simp
    · rw [if_neg hp]
      cases pySplitL sep rest <;> simp

theorem pySplitL_single_nosplit (c0 : Char) :
    ∀ u : List Char, c0 ∉ u → pySplitL [c0] u = [u] := by
  intro u
  induction u with
  | nil => intro _; rfl
  | cons c rest ih =>
    intro hmem
    have hc : c0 ≠ c := fun h => hmem (h ▸ List.mem_cons_self c rest)
    rw [pySplitL_cons [c0] (by simp) c rest]
    rw [if_neg (by simp [List.isPrefixOf]; intro h; exact hc h)]
    rw [ih (fun h => hmem (List.mem_cons_of_mem c h))]

theorem pySplitL_single_append (c0 : Char) :
    ∀ (u w : List Char), c0 ∉ u →
      pySplitL [c0] (u ++ c0 :: w) = u :: pySplitL [c0] w := by
  intro u
  induction u with
  | nil =>
    intro w _
    rw [List.nil_append, pySplitL_cons [c0] (by simp) c0 w]
    rw [if_pos (by simp [List.isPrefixOf])]
    rfl
  | cons d u' ih =>
    intro w hmem
    have hd : c0 ≠ d := fun h => hmem (h ▸ List.mem_cons_self d u')
    rw [List.cons_append, pySplitL_cons [c0] (by simp) d (u' ++ c0 :: w)]
    rw [if_neg (by simp [List.isPrefixOf]; intro h; exact hd h)]
    rw [ih w (fun h => hmem (List.mem_cons_of_mem d h))]

theorem hasDoubleNewline_cons (c : Char) (rest : List Char) :
    hasDoubleNewline (c :: rest) =
      ((decide (c = '\n') && (['\n'].isPrefixOf rest)) || hasDoubleNewline rest) := rfl

theorem pySplitL_nl2_nosplit :
    ∀ u : List Char, hasDoubleNewline u = false → pySplitL ['\n', '\n'] u = [u] := by
  intro u
  induction u with
  | nil => intro _; rfl
  | cons c rest ih =>
    intro h
    rw [hasDoubleNewline_cons] at h
    obtain ⟨hleft, hright⟩ := Bool.or_eq_false_iff.mp h
    have hp : (['\n', '\n'].isPrefixOf (c :: rest)) = false := by
      rw [show (['\n', '\n'].isPrefixOf (c :: rest)) =
        (('\n' == c) && (['\n'].isPrefixOf rest)) from rfl]
      rcases Bool.and_eq_false_iff.mp hleft with h1 | h2
      · have hcne : ¬ (c = '\n') := by simpa using h1
        have : ('\n' == c) = false := by
          rw [beq_eq_false_iff_ne]
          exact fun hh => hcne hh.symm
        rw [this, Bool.false_and]
      · rw [h2, Bool.and_false]
    rw [pySplitL_cons _ (by simp) c rest, if_neg (by simp [hp]), ih hright]

theorem pySplitL_nl2_append :
    ∀ u w : List Char, hasDoubleNewline u = false → u.getLast? ≠ some '\n' →
      pySplitL ['\n', '\n'] (u ++ '\n' :: '\n' :: w) = u :: pySplitL ['\n', '\n'] w := by
  intro u
  induction u with
  | nil =>
    intro w _ _
    rw [List.nil_append, pySplitL_cons _ (by simp) _ _,
      if_pos (by simp [List.isPrefixOf])]
    rfl
  | cons c u' ih =>
    intro w hdn hlast
    rw [hasDoubleNewline_cons] at hdn
    obtain ⟨hleft, hright⟩ := Bool.or_eq_false_iff.mp hdn
    have hlast' : u'.getLast? ≠ some '\n' := by
      cases u' with
      | nil => simp
      | cons d u'' =>
        rw [List.getLast?_cons_cons] at hlast
        exact hlast
    have hp : (['\n', '\n'].isPrefixOf (c :: (u' ++ '\n' :: '\n' :: w))) = false := by
      rw [show (['\n', '\n'].isPrefixOf (c :: (u' ++ '\n' :: '\n' :: w))) =
        (('\n' == c) && (['\n'].isPrefixOf (u' ++ '\n' :: '\n' :: w))) from rfl]
      by_cases hc : c = '\n'
      · subst hc
        cases u' with
        | nil => exact absurd (by decide) hlast
        | cons d u'' =>
          rcases Bool.and_eq_false_iff.mp hleft with h1 | h2
          · exact absurd (by decide) (by simpa using h1 : ¬ ('\n' : Char) = '\n')
          · rw [show (d :: u'' ++ '\n' :: '\n' :: w) = d :: (u'' ++ '\n' :: '\n' :: w)
              from rfl]
            rw [show (['\n'].isPrefixOf (d :: (u'' ++ '\n' :: '\n' :: w))) =
              (('\n' == d) && ([].isPrefixOf (u'' ++ '\n' :: '\n' :: w))) from rfl]
            have hd : ('\n' == d) = false := by
              rw [show (['\n'].isPrefixOf (d :: u'')) =
                (('\n' == d) && ([].isPrefixOf u'')) from rfl] at h2
              simpa using h2
            rw [hd, Bool.false_and, Bool.and_false]
      · have : ('\n' == c) = false := by
          rw [beq_eq_false_iff_ne]
          exact fun hh => hc hh.symm
        rw [this, Bool.false_and]
    rw [List.cons_append, pySplitL_cons _ (by simp) c (u' ++ '\n' :: '\n' :: w),
      if_neg (by simp [hp]), ih w hright hlast']

/-! ## Rendering of labelled sections -/

theorem mk_data (s : String) : String.mk s.data = s := rfl

theorem pySplit_title (T w : String) (hT : '\n' ∉ T.data) :
    pySplit (T ++ "\n" ++ w) "\n" = T :: pySplit w "\n" := by
  have hdata : (T ++ "\n" ++ w).data = T.data ++ '\n' :: w.data := by
    rw [String.data_append, String.data_append]
    rw [show ("\n" : String).data = ['\n'] from rfl]
    simp [List.append_assoc]
  show (pySplitL ("\n" : String).data (T ++ "\n" ++ w).data).map String.mk = _
  rw [show ("\n" : String).data = ['\n'] from rfl, hdata,
    pySplitL_single_append '\n' T.data w.data hT, List.map_cons, mk_data]
  rfl

theorem pySplit_ne_nil (s : String) : pySplit s "\n" ≠ [] := by
  intro h
  rw [show pySplit s "\n" =
    (pySplitL ("\n" : String).data s.data).map String.mk from rfl,
    List.map_eq_nil_iff] at h
  exact pySplitL_ne_nil _ (by simp) _ h

theorem data_ne_nil_of_title (T w : String) (hT : T.data ≠ []) :
    (T ++ "\n" ++ w).data ≠ [] := by
  rw [String.data_append, String.data_append]
  intro h
  rcases List.append_eq_nil.mp h with ⟨h1, _⟩
  rcases List.append_eq_nil.mp h1 with ⟨h2, _⟩
  exact hT h2

theorem renderSection_MW (body : String)
    (hstrip : pyStrip ("MAIN WEAKNESSES:" ++ "\n" ++ body) =
      "MAIN WEAKNESSES:" ++ "\n" ++ body) :
    renderSection ("MAIN WEAKNESSES:" ++ "\n" ++ body) =
      RenderItem.divider :: RenderItem.subheader "Main Weaknesses" ::
        bulletLines (pySplit body "\n") := by
  have hlines := pySplit_title "MAIN WEAKNESSES:" body (by decide)
  have hne : ¬ ((pyStrip ("MAIN WEAKNESSES:" ++ "\n" ++ body)).isEmpty = true) := by
    rw [hstrip, String.isEmpty_iff, String.ext_iff]
    exact data_ne_nil_of_title _ _ (by decide)
  unfold renderSection
  rw [if_neg hne]
  simp only [hstrip, hlines, List.headD_cons, List.tail_cons]
  rw [show pyStrip "MAIN WEAKNESSES:" = "MAIN WEAKNESSES:" from by decide]
  rw [if_pos (by decide)]

theorem renderSection_SG (body : String)
    (hstrip : pyStrip ("SUGGESTIONS FOR IMPROVEMENT:" ++ "\n" ++ body) =
      "SUGGESTIONS FOR IMPROVEMENT:" ++ "\n" ++ body) :
    renderSection ("SUGGESTIONS FOR IMPROVEMENT:" ++ "\n" ++ body) =
      RenderItem.divider :: RenderItem.subheader "Suggestions for Improvement" ::
        bulletLines (pySplit body "\n") := by
  have hlines := pySplit_title "SUGGESTIONS FOR IMPROVEMENT:" body (by decide)
  have hne : ¬ ((pyStrip ("SUGGESTIONS FOR IMPROVEMENT:" ++ "\n" ++ body)).isEmpty = true) := by
    rw [hstrip, String.isEmpty_iff, String.ext_iff]
    exact data_ne_nil_of_title _ _ (by decide)
  unfold renderSection
  rw [if_neg hne]
  simp only [hstrip, hlines, List.headD_cons, List.tail_cons]
  rw [show pyStrip "SUGGESTIONS FOR IMPROVEMENT:" = "SUGGESTIONS FOR IMPROVEMENT:" from by decide]
  rw [if_neg (by decide), if_pos (by decide)]

theorem renderSection_OV (body : String)
    (hstrip : pyStrip ("OVERVIEW:" ++ "\n" ++ body) = "OVERVIEW:" ++ "\n" ++ body) :
    renderSection ("OVERVIEW:" ++ "\n" ++ body) =
      [RenderItem.divider, RenderItem.subheader "Overview",
        RenderItem.prose (String.intercalate " " (pySplit body "\n"))] := by
  have hlines := pySplit_title "OVERVIEW:" body (by decide)
  have hne : ¬ ((pyStrip ("OVERVIEW:" ++ "\n" ++ body)).isEmpty = true) := by
    rw [hstrip, String.isEmpty_iff, String.ext_iff]
    exact data_ne_nil_of_title _ _ (by decide)
  have hlen : ("OVERVIEW:" :: pySplit body "\n").length > 1 := by
    simp only [List.length_cons]
    have := List.length_pos.mpr (pySplit_ne_nil body)
    omega
  unfold renderSection
  rw [if_neg hne]
  simp only [hstrip, hlines, List.headD_cons, List.tail_cons]
  rw [show pyStrip "OVERVIEW:" = "OVERVIEW:" from by decide]
  rw [if_neg (by decide), if_neg (by decide), if_pos (by decide), if_pos hlen]

theorem renderSection_OV_single (t : String) (hstrip : pyStrip t = t)
    (hne : t ≠ "") (hnl : '\n' ∉ t.data)
    (hov : pyStartsWith (pyUpper t) "OVERVIEW" = true)
    (hmw : pyStartsWith (pyUpper t) "MAIN WEAKNESSES" = false)
    (hsg : pyStartsWith (pyUpper t) "SUGGESTIONS" = false) :
    renderSection t =
      [RenderItem.divider, RenderItem.subheader "Overview", RenderItem.prose t] := by
  have hlines : pySplit t "\n" = [t] := by
    show (pySplitL ("\n" : String).data t.data).map String.mk = _
    rw [show ("\n" : String).data = ['\n'] from rfl,
      pySplitL_single_nosplit '\n' t.data hnl, List.map_cons, mk_data]
    rfl
  have hne2 : ¬ ((pyStrip t).isEmpty = true) := by
    rw [hstrip, String.isEmpty_iff]
    exact hne
  unfold renderSection
  rw [if_neg hne2]
  simp only [hstrip, hlines, List.headD_cons, List.tail_cons]
  rw [if_neg (by simp [hmw]), if_neg (by simp [hsg]), if_pos (by simp [hov])]
  rw [if_neg (by simp)]
  rfl

/-- C7 (amended): splitting the cleaned result on blank lines and classifying
each non-empty section by its stripped first line renders one bullet per
remaining non-blank line for the MAIN WEAKNESSES and SUGGESTIONS labels, and
for OVERVIEW renders the remaining lines joined with single spaces — except
that a single-line OVERVIEW section renders that line itself as prose (second
conjunct) — so a report containing the three headed sections yields three
correspondingly labelled subsections. -/
theorem claim_C7 (w s o : String)
    (hwStrip : pyStrip ("MAIN WEAKNESSES:" ++ "\n" ++ w) =
      "MAIN WEAKNESSES:" ++ "\n" ++ w)
    (hsStrip : pyStrip ("SUGGESTIONS FOR IMPROVEMENT:" ++ "\n" ++ s) =
      "SUGGESTIONS FOR IMPROVEMENT:" ++ "\n" ++ s)
    (hoStrip : pyStrip ("OVERVIEW:" ++ "\n" ++ o) = "OVERVIEW:" ++ "\n" ++ o)
    (hwDN : hasDoubleNewline ("MAIN WEAKNESSES:" ++ "\n" ++ w).data = false)
    (hsDN : hasDoubleNewline ("SUGGESTIONS FOR IMPROVEMENT:" ++ "\n" ++ s).data = false)
    (hoDN : hasDoubleNewline ("OVERVIEW:" ++ "\n" ++ o).data = false)
    (hwLast : ("MAIN WEAKNESSES:" ++ "\n" ++ w).data.getLast? ≠ some '\n')
    (hsLast : ("SUGGESTIONS FOR IMPROVEMENT:" ++ "\n" ++ s).data.getLast? ≠ some '\n') :
    renderReport ("MAIN WEAKNESSES:" ++ "\n" ++ w ++ "\n\n" ++
        ("SUGGESTIONS FOR IMPROVEMENT:" ++ "\n" ++ s) ++ "\n\n" ++
        ("OVERVIEW:" ++ "\n" ++ o)) =
      RenderItem.divider :: RenderItem.subheader "Main Weaknesses" ::
        (bulletLines (pySplit w "\n") ++
          (RenderItem.divider :: RenderItem.subheader "Suggestions for Improvement" ::
            (bulletLines (pySplit s "\n") ++
              [RenderItem.divider, RenderItem.subheader "Overview",
                RenderItem.prose (String.intercalate " " (pySplit o "\n"))]))) ∧
    (∀ t : String, pyStrip t = t → t ≠ "" → '\n' ∉ t.data →
      pyStartsWith (pyUpper t) "OVERVIEW" = true →
      pyStartsWith (pyUpper t) "MAIN WEAKNESSES" = false →
      pyStartsWith (pyUpper t) "SUGGESTIONS" = false →
      renderSection t =
        [RenderItem.divider, RenderItem.subheader "Overview", RenderItem.prose t]) := by
  constructor
  · have hdata : ("MAIN WEAKNESSES:" ++ "\n" ++ w ++ "\n\n" ++
        ("SUGGESTIONS FOR IMPROVEMENT:" ++ "\n" ++ s) ++ "\n\n" ++
        ("OVERVIEW:" ++ "\n" ++ o)).data =
        ("MAIN WEAKNESSES:" ++ "\n" ++ w).data ++ '\n' :: '\n' ::
          (("SUGGESTIONS FOR IMPROVEMENT:" ++ "\n" ++ s).data ++ '\n' :: '\n' ::
            ("OVERVIEW:" ++ "\n" ++ o).data) := by
      simp only [String.data_append]
      simp [List.append_assoc]
    have hsplit : pySplit ("MAIN WEAKNESSES:" ++ "\n" ++ w ++ "\n\n" ++
        ("SUGGESTIONS FOR IMPROVEMENT:" ++ "\n" ++ s) ++ "\n\n" ++
        ("OVERVIEW:" ++ "\n" ++ o)) "\n\n" =
        ["MAIN WEAKNESSES:" ++ "\n" ++ w,
         "SUGGESTIONS FOR IMPROVEMENT:" ++ "\n" ++ s,
         "OVERVIEW:" ++ "\n" ++ o] := by
      show (pySplitL ("\n\n" : String).data _).map String.mk = _
      rw [show ("\n\n" : String).data = ['\n', '\n'] from rfl, hdata,
        pySplitL_nl2_append _ _ hwDN hwLast,
        pySplitL_nl2_append _ _ hsDN hsLast,
        pySplitL_nl2_nosplit _ hoDN]
      simp only [List.map_cons, List.map_nil, mk_data]
    show ((pySplit _ "\n\n").map renderSection).flatten = _
    rw [hsplit]
    simp only [List.map_cons, List.map_nil,
      renderSection_MW w hwStrip, renderSection_SG s hsStrip, renderSection_OV o hoStrip]
    simp
  · intro t h1 h2 h3 h4 h5 h6
    exact renderSection_OV_single t h1 h2 h3 h4 h5 h6

/-- C7 counterexample: on a cleaned result consisting of the single-line
section `OVERVIEW:` the code renders the header line itself as the prose,
whereas the claim's rule (remaining lines joined with spaces) would render
the empty string: the remaining lines are empty. -/
theorem claim_C7_counterexample :
    renderReport "OVERVIEW:" =
      [RenderItem.divider, RenderItem.subheader "Overview",
        RenderItem.prose "OVERVIEW:"] ∧
    (pySplit (pyStrip "OVERVIEW:") "\n").tail = ([] : List String) ∧
    RenderItem.prose "OVERVIEW:" ≠
      RenderItem.prose (String.intercalate " "
        ((pySplit (pyStrip "OVERVIEW:") "\n").tail)) := by decide

theorem claim_C7_witness :
    renderReport ("MAIN WEAKNESSES:" ++ "\n" ++ "alpha\nbeta" ++ "\n\n" ++
        ("SUGGESTIONS FOR IMPROVEMENT:" ++ "\n" ++ "fix the intro") ++ "\n\n" ++
        ("OVERVIEW:" ++ "\n" ++ "solid essay")) =
      RenderItem.divider :: RenderItem.subheader "Main Weaknesses" ::
        (bulletLines (pySplit "alpha\nbeta" "\n") ++
          (RenderItem.divider :: RenderItem.subheader "Suggestions for Improvement" ::
            (bulletLines (pySplit "fix the intro" "\n") ++
              [RenderItem.divider, RenderItem.subheader "Overview",
                RenderItem.prose (String.intercalate " "
                  (pySplit "solid essay" "\n"))]))) ∧
    renderSection "overview of issues" =
      [RenderItem.divider, RenderItem.subheader "Overview",
        RenderItem.prose "overview of issues"] := by
  have H := claim_C7 "alpha\nbeta" "fix the intro" "solid essay" (by decide) (by decide)
    (by decide) (by decide) (by decide) (by decide) (by decide) (by decide)
  exact ⟨H.1, H.2 "overview of issues" (by decide) (by decide) (by decide) (by decide)
    (by decide) (by decide)⟩

/-! ## Lemmas about placeholder scanning and substitution values -/

theorem scanVars_brace (f : Nat) (rest : List Char) :
    scanVars (f + 1) ('{' :: rest) =
      ((takeVar rest).map fun p => String.mk p.1 :: scanVars f p.2).getD [] := rfl

theorem scanVars_char (f : Nat) (c : Char) (rest : List Char) (hc : c ≠ '{') :
    scanVars (f + 1) (c :: rest) = scanVars f rest := by
  simp [scanVars, hc]

theorem lookupVal_mem : ∀ (m : List (String × String)) (k v : String),
    lookupVal m k = some v → (k, v) ∈ m := by
  intro m
  induction m with
  | nil => intro k v h; simp [lookupVal] at h
  | cons kv rest ih =>
    intro k v h
    obtain ⟨k0, v0⟩ := kv
    by_cases hk : k0 = k
    · subst hk
      rw [show lookupVal ((k0, v0) :: rest) k0 = some v0 from by simp [lookupVal]] at h
      injection h with h
      subst h
      exact List.mem_cons_self _ _
    · rw [show lookupVal ((k0, v0) :: rest) k = lookupVal rest k from by
        simp [lookupVal, hk]] at h
      exact List.mem_cons_of_mem _ (ih k v h)

theorem lookupVal_of_mem_nodup : ∀ (m : List (String × String)),
    (m.map Prod.fst).Nodup → ∀ kv ∈ m, lookupVal m kv.1 = some kv.2 := by
  intro m
  induction m with
  | nil => intro _ kv h; simp at h
  | cons hd rest ih =>
    intro hnd kv hkv
    obtain ⟨k0, v0⟩ := hd
    rw [List.map_cons, List.nodup_cons] at hnd
    rcases List.mem_cons.mp hkv with heq | hmem
    · subst heq
      simp [lookupVal]
    · have hne : k0 ≠ kv.1 := by
        intro h
        apply hnd.1
        rw [h]
        exact List.mem_map.mpr ⟨kv, hmem, rfl⟩
      rw [show lookupVal ((k0, v0) :: rest) kv.1 = lookupVal rest kv.1 from by
        simp [lookupVal, hne]]
      exact ih hnd.2 kv hmem

theorem fmt_no_brace (m : List (String × String))
    (hm : ∀ kv ∈ m, '{' ∉ kv.2.data ∧ '}' ∉ kv.2.data) :
    ∀ f s out, pyFormatAux m f s = some out → '{' ∉ out ∧ '}' ∉ out := by
  intro f
  induction f with
  | zero =>
    intro s out h
    cases s with
    | nil =>
      rw [fmt_nil] at h
      injection h with h
      subst h
      simp
    | cons c rest => simp [pyFormatAux] at h
  | succ f ih =>
    intro s out h
    cases s with
    | nil =>
      rw [fmt_nil] at h
      injection h with h
      subst h
      simp
    | cons c rest =>
      by_cases hc : c = '{'
      · subst hc
        rw [fmt_brace] at h
        cases htv : takeVar rest with
        | none => rw [htv] at h; exact absurd h (by simp)
        | some p =>
          rw [htv] at h
          simp only [Option.some_bind] at h
          cases hlv : lookupVal m (String.mk p.1) with
          | none => rw [hlv] at h; exact absurd h (by simp)
          | some v =>
            rw [hlv] at h
            simp only [Option.some_bind] at h
            cases hin : pyFormatAux m f p.2 with
            | none => rw [hin] at h; exact absurd h (by simp)
            | some t =>
              rw [hin] at h
              simp only [Option.map_some'] at h
              injection h with h
              subst h
              have hvb := hm (String.mk p.1, v) (lookupVal_mem m _ v hlv)
              have hib := ih p.2 t hin
              constructor
              · intro hmem
                rcases List.mem_append.mp hmem with h1 | h2
                · exact hvb.1 h1
                · exact hib.1 h2
              · intro hmem
                rcases List.mem_append.mp hmem with h1 | h2
                · exact hvb.2 h1
                · exact hib.2 h2
      · by_cases hc2 : c = '}'
        · subst hc2
          rw [show pyFormatAux m (f + 1) ('}' :: rest) = none from rfl] at h
          exact absurd h (by simp)
        · rw [fmt_char m f rest c hc hc2] at h
          cases hin : pyFormatAux m f rest with
          | none => rw [hin] at h; exact absurd h (by simp)
          | some t =>
            rw [hin] at h
            simp only [Option.map_some'] at h
            injection h with h
            subst h
            have hib := ih rest t hin
            constructor
            · intro hmem
              rcases List.mem_cons.mp hmem with h1 | h2
              · exact hc h1.symm
              · exact hib.1 h2
            · intro hmem
              rcases List.mem_cons.mp hmem with h1 | h2
              · exact hc2 h1.symm
              · exact hib.2 h2

theorem fmt_vars_infix (m : List (String × String)) :
    ∀ f s out, pyFormatAux m f s = some out →
      ∀ k ∈ scanVars f s, ∃ v, lookupVal m k = some v ∧ v.data <:+: out := by
  intro f
  induction f with
  | zero =>
    intro s out h k hk
    cases s with
    | nil => simp [scanVars] at hk
    | cons c rest => simp [pyFormatAux] at h
  | succ f ih =>
    intro s out h k hk
    cases s with
    | nil => simp [scanVars] at hk
    | cons c rest =>
      by_cases hc : c = '{'
      · subst hc
        rw [fmt_brace] at h
        rw [scanVars_brace] at hk
        cases htv : takeVar rest with
        | none => rw [htv] at hk; simp at hk
        | some p =>
          rw [htv] at h hk
          simp only [Option.some_bind, Option.map_some', Option.getD_some] at h hk
          cases hlv : lookupVal m (String.mk p.1) with
          | none => rw [hlv] at h; exact absurd h (by simp)
          | some v =>
            rw [hlv] at h
            simp only [Option.some_bind] at h
            cases hin : pyFormatAux m f p.2 with
            | none => rw [hin] at h; exact absurd h (by simp)
            | some t =>
              rw [hin] at h
              simp only [Option.map_some'] at h
              injection h with h
              subst h
              rcases List.mem_cons.mp hk with heq | hmem
              · subst heq
                exact ⟨v, hlv, (List.prefix_append v.data t).isInfix⟩
              · obtain ⟨v2, hv2, hinf⟩ := ih p.2 t hin k hmem
                exact ⟨v2, hv2, hinf.trans (List.suffix_append v.data t).isInfix⟩
      · by_cases hc2 : c = '}'
        · subst hc2
          rw [show pyFormatAux m (f + 1) ('}' :: rest) = none from rfl] at h
          exact absurd h (by simp)
        · rw [fmt_char m f rest c hc hc2] at h
          rw [scanVars_char f c rest hc] at hk
          cases hin : pyFormatAux m f rest with
          | none => rw [hin] at h; exact absurd h (by simp)
          | some t =>
            rw [hin] at h
            simp only [Option.map_some'] at h
            injection h with h
            subst h
            obtain ⟨v2, hv2, hinf⟩ := ih rest t hin k hk
            exact ⟨v2, hv2, hinf.trans (List.suffix_cons c t).isInfix⟩

/-- C9 counterexample: the claim fails as stated.  First, a supplied value may
itself contain a placeholder marker, which then appears verbatim in the output
(values are never re-scanned): formatting the template consisting of the
placeholder `a` with the value `\x7ba\x7d` yields an output that still
contains that marker.  Second, a supplied value whose key matches no
placeholder of the template does not appear in the output at all. -/
theorem claim_C9_counterexample :
    (pyFormat "{a}" [("a", "{a}")] = some "{a}" ∧
      placeholdersOf "{a}" = ["a"] ∧
      ('{' :: ("a" : String).data ++ ['}']) <:+: ("{a}" : String).data) ∧
    (pyFormat "x" [("a", "Z")] = some "x" ∧
      ¬ (("Z" : String).data <:+: ("x" : String).data)) := by
  refine ⟨⟨by decide, by decide, by decide⟩, by decide, by decide⟩

/-- C9 (amended): for every template and substitution map with distinct keys
that each occur as a placeholder of the template and whose values contain no
brace characters, a successful rendering contains every supplied value
verbatim at least once and contains no placeholder marker at all. -/
theorem claim_C9 (t : String) (m : List (String × String)) (out : String)
    (hfmt : pyFormat t m = some out)
    (hnodup : (m.map Prod.fst).Nodup)
    (hkeys : ∀ kv ∈ m, kv.1 ∈ placeholdersOf t)
    (hvals : ∀ kv ∈ m, '{' ∉ kv.2.data ∧ '}' ∉ kv.2.data) :
    (∀ kv ∈ m, kv.2.data <:+: out.data) ∧
    (∀ n : String, ¬ (('{' :: n.data ++ ['}']) <:+: out.data)) := by
  obtain ⟨outChars, haux, hmk⟩ :
      ∃ oc, pyFormatAux m t.data.length t.data = some oc ∧ String.mk oc = out := by
    unfold pyFormat at hfmt
    cases haux : pyFormatAux m t.data.length t.data with
    | none => rw [haux] at hfmt; exact absurd hfmt (by simp)
    | some oc =>
      rw [haux] at hfmt
      simp only [Option.map_some'] at hfmt
      exact ⟨oc, rfl, Option.some.inj hfmt⟩
  have hout : out.data = outChars := by rw [← hmk]
  constructor
  · intro kv hkv
    have hlook : lookupVal m kv.1 = some kv.2 := lookupVal_of_mem_nodup m hnodup kv hkv
    obtain ⟨v, hv, hinf⟩ :=
      fmt_vars_infix m t.data.length t.data outChars haux kv.1 (hkeys kv hkv)
    rw [hlook] at hv
    rw [hout, Option.some.inj hv]
    exact hinf
  · intro n hinf
    have hnb := fmt_no_brace m hvals t.data.length t.data outChars haux
    apply hnb.1
    rw [← hout]
    exact hinf.sublist.subset (List.mem_cons_self '{' _)

theorem claim_C9_witness :
    (∀ kv ∈ [("a", "X"), ("b", "Y")], kv.2.data <:+: ("X and Y" : String).data) ∧
    (∀ n : String, ¬ (('{' :: n.data ++ ['}']) <:+: ("X and Y" : String).data)) :=
  claim_C9 "{a} and {b}" [("a", "X"), ("b", "Y")] "X and Y" (by decide) (by decide)
    (by decide) (by decide)
